import Mathlib

/-!
Verification of the pylcm messaging core.

A shallow embedding of the pylcm publish/subscribe client
(`src/plcm/lcm.py`, `src/plcm/tcpq_provider.py`,
`src/plcm/providers/tcpq_provider.py`, `src/plcm/providers/udpm_provider.py`)
together with proofs about its framing, fragmentation, reassembly,
subscription filtering, registry dispatch and teardown behaviour.

Bytes are modelled as `Nat` values (each `< 256` at the wire boundary),
byte strings as `List Nat`.  Python exceptions are modelled by the
`PyErr` inductive; fallible operations return `Except PyErr _`.
-/

namespace Pylcm

/-- Python exception classes that appear in the modelled code paths.
`ConnectionError` is a subclass of `OSError`; no modelled code path
distinguishes them, so a single `osError` constructor stands for both. -/
inductive PyErr where
  | valueError (msg : String)
  | runtimeError (msg : String)
  | osError
  | overflowError
deriving DecidableEq

instance instDecEqExcept {e a : Type} [DecidableEq e] [DecidableEq a] :
    DecidableEq (Except e a) := fun x y =>
  match x, y with
  | .ok v, .ok w =>
    if h : v = w then isTrue (by rw [h]) else isFalse (fun hc => by cases hc; exact h rfl)
  | .error v, .error w =>
    if h : v = w then isTrue (by rw [h]) else isFalse (fun hc => by cases hc; exact h rfl)
  | .ok _, .error _ => isFalse (fun hc => by cases hc)
  | .error _, .ok _ => isFalse (fun hc => by cases hc)

/-- Big-endian 4-byte encoding, modelling `int.to_bytes(4, "big", signed=False)`
for values in range (callers guard or hypothesise `v < 2^32`). -/
def toBytes4 (v : Nat) : List Nat :=
  [v / 16777216 % 256, v / 65536 % 256, v / 256 % 256, v % 256]

/-- Big-endian 2-byte encoding, modelling `int.to_bytes(2, "big", signed=False)`
for values in range. -/
def toBytes2 (v : Nat) : List Nat :=
  [v / 256 % 256, v % 256]

/-- Big-endian decoding of a byte list, modelling
`int.from_bytes(_, "big", signed=False)` and the unsigned fields of
`struct.unpack(">IIIHH", _)`. -/
def fromBytesBE (l : List Nat) : Nat :=
  l.foldl (fun acc b => acc * 256 + b) 0

theorem fromBytesBE_toBytes4 (v : Nat) (h : v < 4294967296) :
    fromBytesBE (toBytes4 v) = v := by
  simp [fromBytesBE, toBytes4, List.foldl]
  omega

theorem fromBytesBE_toBytes2 (v : Nat) (h : v < 65536) :
    fromBytesBE (toBytes2 v) = v := by
  simp [fromBytesBE, toBytes2, List.foldl]
  omega

/-- Python slice `l[a:b]` semantics for `Int` bounds: negative indices count
from the end, and both bounds are clamped into `[0, len(l)]`. -/
def pySlice (l : List Nat) (a b : Int) : List Nat :=
  let n : Int := l.length
  let lo : Nat := if a < 0 then (max 0 (n + a)).toNat else min a.toNat l.length
  let hi : Nat := if b < 0 then (max 0 (n + b)).toNat else min b.toNat l.length
  (l.take hi).drop lo

theorem pySlice_nonneg (l : List Nat) (a b : Nat) (hb : b ≤ l.length) (hab : a ≤ b) :
    pySlice l (a : Int) (b : Int) = (l.drop a).take (b - a) := by
  simp only [pySlice]
  have h1 : ¬ ((a : Int) < 0) := by omega
  have h2 : ¬ ((b : Int) < 0) := by omega
  rw [if_neg h1, if_neg h2]
  simp only [Int.toNat_ofNat]
  rw [Nat.min_eq_left (le_trans hab hb), Nat.min_eq_left hb, List.drop_take]

theorem pySlice_zero (l : List Nat) (b : Nat) (hb : b ≤ l.length) :
    pySlice l 0 (b : Int) = l.take b := by
  have := pySlice_nonneg l 0 b hb (Nat.zero_le b)
  simpa using this

/-! ## udpm wire constants (`providers/udpm_provider.py`, module level) -/

/-- Constant `MAGIC_SHORT = b"LC02"`. -/
def MAGIC_SHORT : List Nat := [76, 67, 48, 50]

/-- Constant `MAGIC_LONG = b"LC03"`. -/
def MAGIC_LONG : List Nat := [76, 67, 48, 51]

/-- Constant `FRAGMENTATION_THRESHOLD = 64_000`. -/
def FRAGMENTATION_THRESHOLD : Nat := 64000

/-! ## udpm publish path (`LcmUdpmConnection.publish`,
`_publish_small_payload`, `_publish_large_payload`) -/

/-- Fragment count as computed by `_publish_large_payload`:
`payload_length // FRAGMENTATION_THRESHOLD + min(payload_length % FRAGMENTATION_THRESHOLD, 1)`. -/
def udpmFragmentCount (payloadLength : Nat) : Nat :=
  payloadLength / FRAGMENTATION_THRESHOLD + min (payloadLength % FRAGMENTATION_THRESHOLD) 1

/-- One LC03 fragment datagram as assembled in `_publish_large_payload`:
magic, sequence number (4B), total data length (4B), fragment offset (4B),
fragment index (2B), fragment count (2B), then the fragment chunk. -/
def fragDatagram (seq dataLen offset idx cnt : Nat) (chunk : List Nat) : List Nat :=
  MAGIC_LONG ++ toBytes4 seq ++ toBytes4 dataLen ++ toBytes4 offset ++
    toBytes2 idx ++ toBytes2 cnt ++ chunk

/-- The fragment-emitting loop of `_publish_large_payload`: builds the
datagrams for fragment indices `idx, idx+1, …` while `remaining` counts down.
The offset is an `Int` because the Python code computes
`FRAGMENTATION_THRESHOLD - len(encoded_channel)`, which can be negative;
`int.to_bytes(..., signed=False)` then raises `OverflowError` (as does a
sequence number at or beyond `2^32`), modelled by the guard.  An error models
the publish raising part-way: no complete datagram list is produced. -/
def buildFrags (seq : Nat) (encCh data : List Nat) (cnt : Nat) :
    Nat → Int → Nat → Except PyErr (List (List Nat))
  | _, _, 0 => .ok []
  | idx, offset, r + 1 =>
    let fragLen : Int :=
      if idx = 0 then (FRAGMENTATION_THRESHOLD : Int) - encCh.length
      else min (FRAGMENTATION_THRESHOLD : Int) ((data.length : Int) - offset)
    let chunk : List Nat :=
      if idx = 0 then encCh ++ pySlice data 0 fragLen
      else pySlice data offset (offset + fragLen)
    if seq < 4294967296 ∧ 0 ≤ offset then
      match buildFrags seq encCh data cnt (idx + 1) (offset + fragLen) r with
      | .error e => .error e
      | .ok rest => .ok (fragDatagram seq data.length offset.toNat idx cnt chunk :: rest)
    else .error .overflowError

/-- Method `_publish_large_payload(encoded_channel, data)`: computes the fragment
count, fails with `ValueError` when it exceeds 65 535, then emits the
fragments. -/
def udpmPublishLarge (seq : Nat) (encCh data : List Nat) :
    Except PyErr (List (List Nat)) :=
  let fragment_count := udpmFragmentCount (encCh.length + data.length)
  if 65535 < fragment_count then
    .error (.valueError "Payload is too large for a single lcm message.")
  else buildFrags seq encCh data fragment_count 0 0 fragment_count

/-- Method `_publish_small_payload(payload)`: one short datagram
`MAGIC_SHORT ‖ seq (4B) ‖ payload`. -/
def udpmPublishSmall (seq : Nat) (payload : List Nat) :
    Except PyErr (List (List Nat)) :=
  if seq < 4294967296 then .ok [MAGIC_SHORT ++ toBytes4 seq ++ payload]
  else .error .overflowError

/-- The datagrams emitted by one `LcmUdpmConnection.publish(channel, data)` on
a live connection: `channel` is the ASCII-encoded channel (without the NUL);
the payload is `channel ‖ 0x00 ‖ data`, sent short below the fragmentation
threshold and fragmented otherwise. -/
def udpmEncode (seq : Nat) (channel data : List Nat) :
    Except PyErr (List (List Nat)) :=
  let encoded_channel := channel ++ [0]
  let payload := encoded_channel ++ data
  if payload.length < FRAGMENTATION_THRESHOLD then udpmPublishSmall seq payload
  else udpmPublishLarge seq encoded_channel data

/-! ## udpm receive path (`_read_lcm_msg`, `_read_small_payload`,
`_read_large_payload_fragment`) -/

/-- Class `LcmMessage` (`connection.py`): channel and payload.  The channel is kept
as its ASCII byte string (Python stores the `str` obtained by
`bytes.decode("ascii")`, a bijection on ASCII data). -/
structure LcmMessage where
  channel : List Nat
  data : List Nat
deriving DecidableEq

/-- A udpm peer address `(host, port)`; the host string is abstracted to a
numeric identifier, only equality of addresses matters to the modelled code. -/
abbrev Source := Nat × Nat

/-- Dataclass `LcmFragmentBuffer` (in `udpm_provider.py`). -/
structure FragBuffer where
  data : List Nat
  channel : List Nat
  sequence_number : Nat
  source_address : Source
  fragments_remaining : Int
  current_fragment_number : Nat
deriving DecidableEq

/-- The `_fragment_buffers` dict, keyed by (sequence number, source address).
The Python code keys by `hash((sequence_number, source_address))`; the model
keys by the pair itself (`hash` collisions aside, the same partition). -/
abbrev FragMap := List ((Nat × Source) × FragBuffer)

def fmLookup : FragMap → Nat × Source → Option FragBuffer
  | [], _ => none
  | e :: rest, k => if e.1 = k then some e.2 else fmLookup rest k

def fmErase : FragMap → Nat × Source → FragMap
  | [], _ => []
  | e :: rest, k => if e.1 = k then fmErase rest k else e :: fmErase rest k

/-- Assignment `self._fragment_buffers[buffer_key] = fragment_buffer` (dict update). -/
def fmInsert (st : FragMap) (k : Nat × Source) (v : FragBuffer) : FragMap :=
  (k, v) :: fmErase st k

/-- Method `_read_small_payload(data)`: channel up to the first NUL, the rest after
the NUL is the payload. -/
def readSmallPayload (d : List Nat) : LcmMessage :=
  let channel := d.takeWhile (fun b => b != 0)
  ⟨channel, d.drop (channel.length + 1)⟩

/-- The acceptance/accumulation tail of `_read_large_payload_fragment`,
operating on the buffer variable as it stands after the index-0 branch:
reject on missing buffer, sequence mismatch or unexpected index (state
untouched, message `None`); otherwise append the payload, decrement the
remaining count, bump the expected index, and emit the completed message
(deleting the buffer) when no fragments remain. -/
def acceptFragment (st : FragMap) (key : Nat × Source) (fb? : Option FragBuffer)
    (seqn idxn : Nat) (payload : List Nat) : FragMap × Option LcmMessage :=
  match fb? with
  | none => (st, none)
  | some fb =>
    if fb.sequence_number ≠ seqn ∨ fb.current_fragment_number ≠ idxn then (st, none)
    else
      let fb' : FragBuffer :=
        { fb with data := fb.data ++ payload,
                  fragments_remaining := fb.fragments_remaining - 1,
                  current_fragment_number := fb.current_fragment_number + 1 }
      if fb'.fragments_remaining = 0 then (fmErase st key, some ⟨fb'.channel, fb'.data⟩)
      else (fmInsert st key fb', none)

/-- Method `_read_large_payload_fragment(data, source_address)` where `data` is the
datagram after the 4-byte magic: unpack `>IIIHH` (sequence, total length,
offset, fragment index, fragment count — total length and offset are unused
by the code), then on fragment index 0 parse the channel and install a fresh
buffer before the acceptance step. -/
def readLargeFragment (st : FragMap) (d : List Nat) (src : Source) :
    FragMap × Option LcmMessage :=
  let seqn := fromBytesBE (d.take 4)
  let idxn := fromBytesBE ((d.drop 12).take 2)
  let cntn := fromBytesBE ((d.drop 14).take 2)
  let payload := d.drop 16
  let key : Nat × Source := (seqn, src)
  if idxn = 0 then
    let channel := payload.takeWhile (fun b => b != 0)
    let fb : FragBuffer := ⟨[], channel, seqn, src, (cntn : Int), 0⟩
    acceptFragment (fmInsert st key fb) key (some fb) seqn idxn
      (payload.drop (channel.length + 1))
  else acceptFragment st key (fmLookup st key) seqn idxn payload

/-- The `_read_lcm_msg` dispatch on one received datagram: short datagrams are
decoded immediately (sequence number dropped), long datagrams go through
fragment reassembly, anything else is discarded. -/
def udpmReadDatagram (st : FragMap) (d : List Nat) (src : Source) :
    FragMap × Option LcmMessage :=
  if d.take 4 = MAGIC_SHORT then (st, some (readSmallPayload (d.drop 8)))
  else if d.take 4 = MAGIC_LONG then readLargeFragment st (d.drop 4) src
  else (st, none)

/-- Feeding a sequence of datagrams from one source through the receiver, in
order, collecting every emitted message. -/
def processDatagrams : FragMap → List (List Nat) → Source → FragMap × List LcmMessage
  | st, [], _ => (st, [])
  | st, d :: rest, src =>
    let r1 := udpmReadDatagram st d src
    let r2 := processDatagrams r1.1 rest src
    (r2.1, r1.2.toList ++ r2.2)

/-! ## Parsing helper lemmas -/

theorem take4_toBytes4 (v : Nat) (l : List Nat) : (toBytes4 v ++ l).take 4 = toBytes4 v := rfl

theorem drop4_toBytes4 (v : Nat) (l : List Nat) : (toBytes4 v ++ l).drop 4 = l := rfl

theorem takeWhile_channel (channel rest : List Nat) (h : (0 : Nat) ∉ channel) :
    (channel ++ 0 :: rest).takeWhile (fun b => b != 0) = channel := by
  induction channel with
  | nil => simp [List.takeWhile]
  | cons a l ih =>
    simp only [List.mem_cons, not_or] at h
    have ha : (a != 0) = true := by
      simp only [bne_iff_ne, ne_eq]
      exact fun hc => h.1 hc.symm
    simp only [List.cons_append, List.takeWhile_cons, ha, if_true]
    rw [ih h.2]

theorem drop_channel (channel rest : List Nat) :
    (channel ++ 0 :: rest).drop (channel.length + 1) = rest := by
  have e : channel ++ 0 :: rest = (channel ++ [0]) ++ rest := by simp
  have hl : channel.length + 1 = (channel ++ [0]).length := by simp
  rw [e, hl, List.drop_left]

theorem readSmallPayload_eq (channel data : List Nat) (h : (0 : Nat) ∉ channel) :
    readSmallPayload (channel ++ 0 :: data) = ⟨channel, data⟩ := by
  simp only [readSmallPayload, takeWhile_channel channel data h, drop_channel]

/-! ## tcpq framing (`providers/tcpq_provider.py`) -/

/-- The PUBLISH frame written by `LcmTcpqConnection.publish`: message type 1,
channel length, channel, data length, data — all integers 4-byte big-endian. -/
def tcpqPublishFrame (channel data : List Nat) : List Nat :=
  toBytes4 1 ++ toBytes4 channel.length ++ channel ++ toBytes4 data.length ++ data

/-- Method `LcmTcpqConnection._read_lcm_msg` on an inbound byte stream with the frame
fully available: skip the 4-byte type, read the channel length and channel,
then the data length and data; the unread remainder of the stream is
returned alongside. -/
def tcpqReadLcmMsg (stream : List Nat) : LcmMessage × List Nat :=
  let s1 := stream.drop 4
  let channel_length := fromBytesBE (s1.take 4)
  let s2 := s1.drop 4
  let channel := s2.take channel_length
  let s3 := s2.drop channel_length
  let data_length := fromBytesBE (s3.take 4)
  let s4 := s3.drop 4
  (⟨channel, s4.take data_length⟩, s4.drop data_length)

/-- C5: decoding a tcpq PUBLISH frame (type 1, 4-byte big-endian channel
length, ASCII channel bytes, 4-byte big-endian data length, data) with the
inbound frame reader yields exactly the original (channel, data) pair, and
consumes exactly the frame. -/
theorem c5_tcpq_publish_roundtrip (channel data rest : List Nat)
    (hc : channel.length < 4294967296) (hd : data.length < 4294967296) :
    tcpqReadLcmMsg (tcpqPublishFrame channel data ++ rest) =
      (⟨channel, data⟩, rest) := by
  have e1 : tcpqPublishFrame channel data ++ rest
      = toBytes4 1 ++ (toBytes4 channel.length ++
          (channel ++ (toBytes4 data.length ++ (data ++ rest)))) := by
    simp [tcpqPublishFrame, List.append_assoc]
  simp only [tcpqReadLcmMsg, e1, drop4_toBytes4, take4_toBytes4]
  rw [fromBytesBE_toBytes4 channel.length hc, List.take_left, List.drop_left,
    drop4_toBytes4, take4_toBytes4, fromBytesBE_toBytes4 data.length hd,
    List.take_left, List.drop_left]

/-- Witness for `c5_tcpq_publish_roundtrip` at channel "hi" = [104, 105],
data [1, 2, 3] and a nonempty remainder. -/
theorem c5_tcpq_publish_roundtrip_witness :
    List.length [104, 105] < 4294967296 ∧ List.length [1, 2, 3] < 4294967296 ∧
      tcpqReadLcmMsg (tcpqPublishFrame [104, 105] [1, 2, 3] ++ [9]) =
        (⟨[104, 105], [1, 2, 3]⟩, [9]) :=
  ⟨by decide, by decide,
    c5_tcpq_publish_roundtrip [104, 105] [1, 2, 3] [9] (by decide) (by decide)⟩

/-! ## Publish dispatch and fragment-count bound (claims C2 and C8) -/

theorem buildFrags_ne_valueError (seq : Nat) (encCh data : List Nat) (cnt : Nat) :
    ∀ (r idx : Nat) (o : Int) (m : String),
      buildFrags seq encCh data cnt idx o r ≠ Except.error (.valueError m) := by
  intro r
  induction r with
  | zero => intro idx o m h; exact absurd h (by simp [buildFrags])
  | succ n ih =>
    intro idx o m h
    rw [buildFrags] at h
    split at h
    · split at h
      case _ e heq =>
        cases h
        exact ih _ _ _ heq
      case _ rest heq => cases h
    · cases h

/-- C2: with `payload_length = len(channel) + 1 + len(data)`, a publish below
the 64 000-byte threshold sends exactly one short datagram carrying
`channel ‖ 0x00 ‖ data`, any other publish (including `payload_length`
exactly 64 000) takes the fragmented path, and the fragment count that path
computes equals `ceil(payload_length / 64 000)`. -/
theorem c2_publish_dispatch (seq : Nat) (channel data : List Nat)
    (hseq : seq < 4294967296) :
    udpmEncode seq channel data =
      (if channel.length + 1 + data.length < 64000 then
        Except.ok [MAGIC_SHORT ++ toBytes4 seq ++ (channel ++ [0] ++ data)]
      else udpmPublishLarge seq (channel ++ [0]) data) ∧
    udpmFragmentCount (channel.length + 1 + data.length) =
      (channel.length + 1 + data.length + 63999) / 64000 := by
  have hP : ((channel ++ [0]) ++ data).length = channel.length + 1 + data.length := by
    simp
    omega
  constructor
  · simp only [udpmEncode, FRAGMENTATION_THRESHOLD, hP]
    by_cases h : channel.length + 1 + data.length < 64000
    · rw [if_pos h, if_pos h]
      simp [udpmPublishSmall, hseq, List.append_assoc]
    · rw [if_neg h, if_neg h]
  · simp only [udpmFragmentCount, FRAGMENTATION_THRESHOLD]
    omega

/-- Witness for `c2_publish_dispatch` at sequence number 0, channel "a" =
[97] and empty data (payload length 2, short path, one fragment by the
ceiling formula). -/
theorem c2_publish_dispatch_witness :
    (0 : Nat) < 4294967296 ∧
      (udpmEncode 0 [97] [] =
        (if List.length [97] + 1 + List.length ([] : List Nat) < 64000 then
          Except.ok [MAGIC_SHORT ++ toBytes4 0 ++ ([97] ++ [0] ++ [])]
        else udpmPublishLarge 0 ([97] ++ [0]) []) ∧
      udpmFragmentCount (List.length [97] + 1 + List.length ([] : List Nat)) =
        (List.length [97] + 1 + List.length ([] : List Nat) + 63999) / 64000) :=
  ⟨by decide, c2_publish_dispatch 0 [97] [] (by decide)⟩

/-- C8: a udpm publish fails with the "payload too large" `ValueError`
(an invalid-argument error) precisely when the computed fragment count
exceeds 65 535; with the fragment count within bounds that error is never
raised, whatever else happens. -/
theorem c8_fragment_count_overflow (seq : Nat) (channel data : List Nat) :
    udpmEncode seq channel data =
        Except.error (.valueError "Payload is too large for a single lcm message.") ↔
      65535 < udpmFragmentCount (channel.length + 1 + data.length) := by
  have hP : ((channel ++ [0]) ++ data).length = channel.length + 1 + data.length := by
    simp
    omega
  have hP2 : (channel ++ [0]).length + data.length = channel.length + 1 + data.length := by
    simp
  simp only [udpmEncode, FRAGMENTATION_THRESHOLD, hP]
  by_cases hsmall : channel.length + 1 + data.length < 64000
  · rw [if_pos hsmall]
    constructor
    · intro h
      simp only [udpmPublishSmall] at h
      split at h <;> simp_all
    · intro h
      exfalso
      simp only [udpmFragmentCount, FRAGMENTATION_THRESHOLD] at h
      omega
  · rw [if_neg hsmall]
    simp only [udpmPublishLarge, hP2]
    by_cases hcnt : 65535 < udpmFragmentCount (channel.length + 1 + data.length)
    · rw [if_pos hcnt]
      simp [hcnt]
    · rw [if_neg hcnt]
      constructor
      · intro h
        exact absurd h (buildFrags_ne_valueError _ _ _ _ _ _ _ _)
      · intro h
        exact absurd h hcnt

/-! ## Fragment reassembly round-trip (claim C1) -/

theorem fmLookup_fmInsert (st : FragMap) (k : Nat × Source) (v : FragBuffer) :
    fmLookup (fmInsert st k v) k = some v := by
  simp [fmInsert, fmLookup]

/-- The body of an LC03 datagram after the magic: the `>IIIHH` header fields
followed by the chunk. -/
def fragBody (seq dataLen offset idx cnt : Nat) (chunk : List Nat) : List Nat :=
  toBytes4 seq ++ (toBytes4 dataLen ++ (toBytes4 offset ++
    (toBytes2 idx ++ (toBytes2 cnt ++ chunk))))

theorem fragDatagram_take4 (seq L off idx cnt : Nat) (chunk : List Nat) :
    (fragDatagram seq L off idx cnt chunk).take 4 = MAGIC_LONG := rfl

theorem fragDatagram_drop4 (seq L off idx cnt : Nat) (chunk : List Nat) :
    (fragDatagram seq L off idx cnt chunk).drop 4 = fragBody seq L off idx cnt chunk := rfl

theorem fragBody_take4 (seq L off idx cnt : Nat) (chunk : List Nat) :
    (fragBody seq L off idx cnt chunk).take 4 = toBytes4 seq := rfl

theorem fragBody_drop12_take2 (seq L off idx cnt : Nat) (chunk : List Nat) :
    ((fragBody seq L off idx cnt chunk).drop 12).take 2 = toBytes2 idx := rfl

theorem fragBody_drop14_take2 (seq L off idx cnt : Nat) (chunk : List Nat) :
    ((fragBody seq L off idx cnt chunk).drop 14).take 2 = toBytes2 cnt := rfl

theorem fragBody_drop16 (seq L off idx cnt : Nat) (chunk : List Nat) :
    (fragBody seq L off idx cnt chunk).drop 16 = chunk := rfl

/-- Receiving an LC03 fragment with index ≥ 1 reduces to the buffer
acceptance step on the stored buffer for (sequence, source). -/
theorem udpmReadDatagram_fragment_pos (st : FragMap) (src : Source)
    (seqn L off idx cnt : Nat) (chunk : List Nat)
    (hseq : seqn < 4294967296) (hidx : idx < 65536) (hidx0 : idx ≠ 0) :
    udpmReadDatagram st (fragDatagram seqn L off idx cnt chunk) src =
      acceptFragment st (seqn, src) (fmLookup st (seqn, src)) seqn idx chunk := by
  simp only [udpmReadDatagram, fragDatagram_take4]
  rw [if_neg (by decide : ¬(MAGIC_LONG = MAGIC_SHORT)), if_pos trivial, fragDatagram_drop4]
  simp only [readLargeFragment, fragBody_take4, fragBody_drop12_take2, fragBody_drop16,
    fromBytesBE_toBytes4 seqn hseq, fromBytesBE_toBytes2 idx hidx]
  rw [if_neg hidx0]

/-- Receiving an LC03 fragment with index 0 installs a fresh buffer (parsing
the channel up to the NUL) and reduces to the acceptance step on it. -/
theorem udpmReadDatagram_fragment_zero (st : FragMap) (src : Source)
    (seqn L off cnt : Nat) (channel rest0 : List Nat)
    (hseq : seqn < 4294967296) (hcnt : cnt < 65536) (hch : (0 : Nat) ∉ channel) :
    udpmReadDatagram st (fragDatagram seqn L off 0 cnt (channel ++ 0 :: rest0)) src =
      acceptFragment (fmInsert st (seqn, src) ⟨[], channel, seqn, src, (cnt : Int), 0⟩)
        (seqn, src) (some ⟨[], channel, seqn, src, (cnt : Int), 0⟩) seqn 0 rest0 := by
  simp only [udpmReadDatagram, fragDatagram_take4]
  rw [if_neg (by decide : ¬(MAGIC_LONG = MAGIC_SHORT)), if_pos trivial, fragDatagram_drop4]
  simp only [readLargeFragment, fragBody_take4, fragBody_drop12_take2, fragBody_drop14_take2,
    fragBody_drop16, fromBytesBE_toBytes4 seqn hseq, fromBytesBE_toBytes2 cnt hcnt,
    (by decide : fromBytesBE (toBytes2 0) = 0)]
  rw [if_pos trivial, takeWhile_channel channel rest0 hch, drop_channel]

/-- Processing the fragments with indices `idx, …, cnt-1` of a fragmented udpm
publish, in order, against a buffer that has already accumulated the first
`o` data bytes, completes the reassembly and emits exactly the original
message. -/
theorem processFragTail (seq : Nat) (channel data : List Nat) (cnt : Nat) (src : Source)
    (hseq : seq < 4294967296) (hcnt : cnt < 65536) :
    ∀ (r idx o : Nat) (st : FragMap) (frags : List (List Nat)),
      buildFrags seq (channel ++ [0]) data cnt idx (o : Int) r = .ok frags →
      fmLookup st (seq, src) = some ⟨data.take o, channel, seq, src, (r : Int), idx⟩ →
      1 ≤ idx → idx + r = cnt → 1 ≤ r →
      o ≤ data.length → data.length ≤ o + r * 64000 →
      (processDatagrams st frags src).2 = [⟨channel, data⟩] := by
  intro r
  induction r with
  | zero => intro idx o st frags _ _ _ _ h5; exact absurd h5 (by omega)
  | succ n ih =>
    intro idx o st frags hbuild hlk hidx hsum _ ho hcover
    have hidx0 : idx ≠ 0 := by omega
    have hidxlt : idx < 65536 := by omega
    rw [buildFrags] at hbuild
    rw [if_neg hidx0, if_neg hidx0] at hbuild
    rw [if_pos ⟨hseq, by omega⟩] at hbuild
    -- normalise the fragment length to a natural number
    have hfl : min (FRAGMENTATION_THRESHOLD : Int) ((data.length : Int) - (o : Int))
        = ((min 64000 (data.length - o) : Nat) : Int) := by
      simp only [FRAGMENTATION_THRESHOLD]
      omega
    rw [hfl] at hbuild
    have hofl : (o : Int) + ((min 64000 (data.length - o) : Nat) : Int)
        = ((o + min 64000 (data.length - o) : Nat) : Int) := by
      push_cast
      ring
    rw [hofl] at hbuild
    have hchunk : pySlice data (o : Int) ((o + min 64000 (data.length - o) : Nat) : Int)
        = (data.drop o).take (min 64000 (data.length - o)) := by
      rw [pySlice_nonneg data o (o + min 64000 (data.length - o)) (by omega) (by omega)]
      congr 1
      omega
    rw [hchunk] at hbuild
    have hacc : data.take o ++ (data.drop o).take (min 64000 (data.length - o))
        = data.take (o + min 64000 (data.length - o)) := by
      rw [List.take_add]
    -- split on the recursive call
    cases hrec : buildFrags seq (channel ++ [0]) data cnt (idx + 1)
        ((o + min 64000 (data.length - o) : Nat) : Int) n with
    | error e =>
      rw [hrec] at hbuild
      cases hbuild
    | ok rest =>
      rw [hrec] at hbuild
      cases hbuild
      rw [processDatagrams]
      rw [udpmReadDatagram_fragment_pos st src seq data.length
        ((o : Int)).toNat idx cnt _ hseq hidxlt hidx0]
      rw [hlk]
      simp only [acceptFragment]
      rw [if_neg (by simp : ¬ (seq ≠ seq ∨ idx ≠ idx))]
      cases n with
      | zero =>
        -- last fragment: the buffer completes and the message is emitted
        have hrem : ((1 : Nat) : Int) - 1 = 0 := by norm_num
        simp only [hrem, if_pos rfl]
        have hfin : o + min 64000 (data.length - o) = data.length := by omega
        have hzero : buildFrags seq (channel ++ [0]) data cnt (idx + 1)
            ((o + min 64000 (data.length - o) : Nat) : Int) 0 = .ok [] := by
          rw [buildFrags]
        rw [hzero] at hrec
        cases hrec
        rw [processDatagrams]
        simp only [Option.toList, hacc, hfin, List.take_length]
        simp
      | succ m =>
        have hrem : ((m + 1 + 1 : Nat) : Int) - 1 = ((m + 1 : Nat) : Int) := by
          push_cast
          ring
        simp only [hrem]
        rw [if_neg (by omega : ¬ ((m + 1 : Nat) : Int) = 0)]
        simp only [Option.toList, List.nil_append]
        exact ih (idx + 1) (o + min 64000 (data.length - o))
          (fmInsert st (seq, src) _) rest hrec
          (by rw [fmLookup_fmInsert]; congr 1; simp [hacc])
          (by omega) (by omega) (by omega) (by omega) (by omega)


theorem buildFrags_ok_guard (seq : Nat) (encCh data : List Nat) (cnt idx : Nat) (o : Int)
    (r : Nat) (l : List (List Nat))
    (h : buildFrags seq encCh data cnt idx o (r + 1) = .ok l) :
    seq < 4294967296 ∧ 0 ≤ o := by
  by_cases hg : seq < 4294967296 ∧ 0 ≤ o
  · exact hg
  · exfalso
    simp only [buildFrags] at h
    rw [if_neg hg] at h
    cases h

theorem buildFrags_zero (seq : Nat) (encCh data : List Nat) (cnt idx : Nat) (o : Int) :
    buildFrags seq encCh data cnt idx o 0 = .ok [] := rfl

/-- Receiving a short (LC02) datagram decodes its payload immediately, with
no effect on the fragment buffers. -/
theorem udpmReadDatagram_short (st : FragMap) (src : Source) (seq : Nat)
    (payload : List Nat) :
    udpmReadDatagram st (MAGIC_SHORT ++ toBytes4 seq ++ payload) src =
      (st, some (readSmallPayload payload)) := by
  simp only [udpmReadDatagram]
  rw [if_pos (show (MAGIC_SHORT ++ toBytes4 seq ++ payload).take 4 = MAGIC_SHORT from rfl)]
  rw [show (MAGIC_SHORT ++ toBytes4 seq ++ payload).drop 8 = payload from rfl]

/-- C1 (amended): for every channel free of NUL bytes, decoding the datagrams
of a successful udpm publish in index order, all from one source, emits
exactly the original (channel, data) — whatever fragment buffers the receiver
already holds.  This covers both the short path and the fragmented path. -/
theorem c1_udpm_roundtrip (seq : Nat) (channel data : List Nat) (src : Source)
    (st : FragMap) (frags : List (List Nat))
    (hch : (0 : Nat) ∉ channel)
    (henc : udpmEncode seq channel data = .ok frags) :
    (processDatagrams st frags src).2 = [⟨channel, data⟩] := by
  simp only [udpmEncode] at henc
  by_cases hsmall : ((channel ++ [0]) ++ data).length < FRAGMENTATION_THRESHOLD
  · -- short path
    rw [if_pos hsmall] at henc
    simp only [udpmPublishSmall] at henc
    split at henc
    · cases henc
      have hassoc : (channel ++ [0]) ++ data = channel ++ 0 :: data := by simp
      simp only [processDatagrams, hassoc, Option.toList]
      rw [udpmReadDatagram_short, readSmallPayload_eq channel data hch]
      simp
    · cases henc
  · -- fragmented path
    rw [if_neg hsmall] at henc
    simp only [udpmPublishLarge] at henc
    have hlen2 : (channel ++ [0]).length + data.length
        = channel.length + 1 + data.length := by
      simp
    rw [hlen2] at henc
    have hP64 : 64000 ≤ channel.length + 1 + data.length := by
      simp only [List.length_append, List.length_cons, List.length_nil,
        FRAGMENTATION_THRESHOLD] at hsmall
      omega
    by_cases hbig : 65535 < udpmFragmentCount (channel.length + 1 + data.length)
    · rw [if_pos hbig] at henc
      cases henc
    rw [if_neg hbig] at henc
    obtain ⟨m, hm⟩ : ∃ m, udpmFragmentCount (channel.length + 1 + data.length) = m + 1 :=
      ⟨udpmFragmentCount (channel.length + 1 + data.length) - 1, by
        simp only [udpmFragmentCount, FRAGMENTATION_THRESHOLD]
        omega⟩
    rw [hm] at henc
    have hcntlt : m + 1 < 65536 := by omega
    simp only [buildFrags, if_true] at henc
    split at henc
    swap
    · cases henc
    rename_i hguard
    have hseq' : seq < 4294967296 := hguard.1
    split at henc
    · cases henc
    rename_i rest heq
    cases henc
    -- the fragment-0 chunk and offset
    cases m with
    | zero =>
      rw [buildFrags_zero] at heq
      cases heq
      have hPeq : channel.length + 1 + data.length = 64000 := by
        simp only [udpmFragmentCount, FRAGMENTATION_THRESHOLD] at hm
        omega
      have hfl0 : (FRAGMENTATION_THRESHOLD : Int) - ((channel ++ [0]).length : Int)
          = ((data.length : Nat) : Int) := by
        simp only [FRAGMENTATION_THRESHOLD, List.length_append, List.length_cons,
          List.length_nil]
        omega
      rw [hfl0, pySlice_zero data data.length (le_refl _), List.take_length]
      have hassoc : (channel ++ [0]) ++ data = channel ++ 0 :: data := by simp
      rw [hassoc]
      simp only [processDatagrams]
      rw [show ((0 : Int)).toNat = 0 from rfl,
        udpmReadDatagram_fragment_zero st src seq data.length 0 (0 + 1) channel data
          hseq' hcntlt hch]
      simp [acceptFragment]
    | succ k =>
      have hfl1 : channel.length + 1 ≤ 64000 := by
        have := (buildFrags_ok_guard _ _ _ _ _ _ _ _ heq).2
        simp only [FRAGMENTATION_THRESHOLD, List.length_append, List.length_cons,
          List.length_nil] at this
        omega
      have ho1 : 64000 - (channel.length + 1) ≤ data.length := by omega
      have hfl2 : (0 : Int) + ((FRAGMENTATION_THRESHOLD : Int) - ((channel ++ [0]).length : Int))
          = ((64000 - (channel.length + 1) : Nat) : Int) := by
        simp only [FRAGMENTATION_THRESHOLD, List.length_append, List.length_cons,
          List.length_nil]
        omega
      rw [hfl2] at heq
      have hflch : (FRAGMENTATION_THRESHOLD : Int) - ((channel ++ [0]).length : Int)
          = ((64000 - (channel.length + 1) : Nat) : Int) := by
        simp only [FRAGMENTATION_THRESHOLD, List.length_append, List.length_cons,
          List.length_nil]
        omega
      rw [hflch, pySlice_zero data (64000 - (channel.length + 1)) ho1]
      have hassoc : (channel ++ [0]) ++ data.take (64000 - (channel.length + 1))
          = channel ++ 0 :: data.take (64000 - (channel.length + 1)) := by simp
      rw [hassoc]
      simp only [processDatagrams]
      rw [show ((0 : Int)).toNat = 0 from rfl,
        udpmReadDatagram_fragment_zero st src seq data.length 0 (k + 1 + 1) channel
          (data.take (64000 - (channel.length + 1))) hseq' hcntlt hch]
      simp only [acceptFragment]
      rw [if_neg (by simp : ¬ (seq ≠ seq ∨ (0 : Nat) ≠ 0))]
      rw [if_neg (by push_cast; omega : ¬ ((((k + 1 + 1 : Nat)) : Int) - 1 = 0))]
      simp only [Option.toList, List.nil_append]
      refine processFragTail seq channel data (k + 1 + 1) src hseq' hcntlt (k + 1) (0 + 1)
        (64000 - (channel.length + 1)) _ rest heq ?_ (by omega) (by omega) (by omega)
        (by omega) ?_
      · rw [fmLookup_fmInsert,
          (by push_cast; ring : ((k + 1 + 1 : Nat) : Int) - 1 = ((k + 1 : Nat) : Int))]
      · have : (k + 1 + 1) * 64000 ≥ channel.length + 1 + data.length := by
          simp only [udpmFragmentCount, FRAGMENTATION_THRESHOLD] at hm
          omega
        omega

/-- Counterexample to C1 as frozen: the claim quantifies over every channel
string, but for the channel "\x00" (a legal ASCII string) with data [120]
the publish succeeds, while decoding its datagram splits the payload at the
first NUL and yields channel "" with data [0, 120] — not the original pair. -/
theorem c1_udpm_roundtrip_counterexample :
    udpmEncode 0 [0] [120] = .ok [[76, 67, 48, 50, 0, 0, 0, 0, 0, 0, 120]] ∧
      (processDatagrams [] [[76, 67, 48, 50, 0, 0, 0, 0, 0, 0, 120]] (0, 0)).2
        ≠ [⟨[0], [120]⟩] ∧
      (processDatagrams [] [[76, 67, 48, 50, 0, 0, 0, 0, 0, 0, 120]] (0, 0)).2
        = [⟨[], [0, 120]⟩] :=
  ⟨by decide, by decide, by decide⟩

/-- Witness for `c1_udpm_roundtrip` at channel "a" = [97], data [98]. -/
theorem c1_udpm_roundtrip_witness :
    ((0 : Nat) ∉ ([97] : List Nat)) ∧
      udpmEncode 0 [97] [98] = .ok [[76, 67, 48, 50, 0, 0, 0, 0, 97, 0, 98]] ∧
      (processDatagrams [] [[76, 67, 48, 50, 0, 0, 0, 0, 97, 0, 98]] (0, 0)).2
        = [⟨[97], [98]⟩] :=
  ⟨by decide, by decide,
    c1_udpm_roundtrip 0 [97] [98] (0, 0) [] [[76, 67, 48, 50, 0, 0, 0, 0, 97, 0, 98]]
      (by decide) (by decide)⟩

/-! ## Fragment-buffer invariants (claim C3) -/

/-- Number of buffers stored under a given (sequence, source) key. -/
def countKey (st : FragMap) (k : Nat × Source) : Nat :=
  st.countP (fun e => decide (e.1 = k))

theorem countKey_fmErase_self (st : FragMap) (k : Nat × Source) :
    countKey (fmErase st k) k = 0 := by
  induction st with
  | nil => rfl
  | cons e rest ih =>
    simp only [countKey, fmErase] at ih ⊢
    split
    · exact ih
    · rename_i hne
      simp [List.countP_cons, hne, ih]

theorem countKey_fmErase_le (st : FragMap) (k k' : Nat × Source) :
    countKey (fmErase st k) k' ≤ countKey st k' := by
  induction st with
  | nil => exact Nat.le_refl _
  | cons e rest ih =>
    simp only [countKey, fmErase] at ih ⊢
    split
    · refine le_trans ih ?_
      rw [List.countP_cons]
      omega
    · rw [List.countP_cons, List.countP_cons]
      omega

theorem countKey_fmInsert (st : FragMap) (k : Nat × Source) (v : FragBuffer)
    (k' : Nat × Source) (h : ∀ k'', countKey st k'' ≤ 1) :
    countKey (fmInsert st k v) k' ≤ 1 := by
  by_cases hk : k = k'
  · subst hk
    have h0 := countKey_fmErase_self st k
    simp only [fmInsert, countKey, List.countP_cons] at h0 ⊢
    simp [h0]
  · have hle := countKey_fmErase_le st k k'
    have h1 := h k'
    simp only [fmInsert, countKey, List.countP_cons] at hle h1 ⊢
    simp only [show (((k, v) : (Nat × Source) × FragBuffer).1 = k') = (k = k') from rfl, hk]
    simp
    omega

theorem countKey_acceptFragment (st : FragMap) (key : Nat × Source)
    (fb? : Option FragBuffer) (seqn idxn : Nat) (payload : List Nat)
    (h : ∀ k', countKey st k' ≤ 1) (k : Nat × Source) :
    countKey (acceptFragment st key fb? seqn idxn payload).1 k ≤ 1 := by
  rcases fb? with _ | fb
  · exact h k
  · simp only [acceptFragment]
    split
    · exact h k
    · split
      · exact le_trans (countKey_fmErase_le st key k) (h k)
      · exact countKey_fmInsert st key _ k h

/-- Every step of `_read_large_payload_fragment` keeps at most one buffer per
(sequence, source) key. -/
theorem countKey_readLargeFragment (st : FragMap) (d : List Nat) (src : Source)
    (h : ∀ k', countKey st k' ≤ 1) (k : Nat × Source) :
    countKey (readLargeFragment st d src).1 k ≤ 1 := by
  simp only [readLargeFragment]
  split
  · exact countKey_acceptFragment _ _ _ _ _ _
      (fun k' => countKey_fmInsert st _ _ k' h) k
  · exact countKey_acceptFragment _ _ _ _ _ _ h k

/-- Decidable form of the rejection condition of
`_read_large_payload_fragment` for a datagram body `dm`: no buffer is stored
under its (sequence, source) key, or the stored buffer's sequence number or
next expected fragment index does not match the datagram's. -/
def fragMismatch (st : FragMap) (dm : List Nat) (src : Source) : Bool :=
  match fmLookup st (fromBytesBE (dm.take 4), src) with
  | none => true
  | some fb =>
      decide (fb.sequence_number ≠ fromBytesBE (dm.take 4)) ||
        decide (fb.current_fragment_number ≠ fromBytesBE ((dm.drop 12).take 2))

/-- C3 (amended): at most one fragment buffer ever exists per
(sequence, source) key, and a fragment whose index is non-zero and fails the
buffer check (missing buffer, sequence mismatch, or index not equal to the
next expected one) is dropped with no state change at all: in particular the
stored buffer is NOT dropped — it remains under its key unchanged. -/
theorem c3_fragment_buffers (st : FragMap) (d dm : List Nat) (src : Source)
    (k : Nat × Source)
    (hwk : ∀ k', countKey st k' ≤ 1)
    (hidx : fromBytesBE ((dm.drop 12).take 2) ≠ 0)
    (hmis : fragMismatch st dm src = true) :
    countKey (readLargeFragment st d src).1 k ≤ 1 ∧
      readLargeFragment st dm src = (st, none) := by
  refine ⟨countKey_readLargeFragment st d src hwk k, ?_⟩
  simp only [readLargeFragment]
  rw [if_neg hidx]
  simp only [fragMismatch] at hmis
  cases hlk : fmLookup st (fromBytesBE (dm.take 4), src) with
  | none => rfl
  | some fb =>
    rw [hlk] at hmis
    simp only [Bool.or_eq_true, decide_eq_true_eq] at hmis
    simp only [acceptFragment]
    rw [if_pos hmis]

/-- Counterexample to C3 as frozen: after fragment 0 of a three-fragment
message (sequence 5, channel "a") the buffer expects index 1; feeding the
non-monotonic fragment with index 2 is dropped (no message, state unchanged)
but the buffer REMAINS stored under the (5, source) key, whereas the claim
says no buffer remains. -/
theorem c3_fragment_buffers_counterexample :
    readLargeFragment
        ((readLargeFragment []
          (toBytes4 5 ++ toBytes4 3 ++ toBytes4 0 ++ toBytes2 0 ++ toBytes2 3 ++ [97, 0, 1])
          (0, 0)).1)
        (toBytes4 5 ++ toBytes4 3 ++ toBytes4 2 ++ toBytes2 2 ++ toBytes2 3 ++ [3]) (0, 0)
      = ((readLargeFragment []
          (toBytes4 5 ++ toBytes4 3 ++ toBytes4 0 ++ toBytes2 0 ++ toBytes2 3 ++ [97, 0, 1])
          (0, 0)).1, none) ∧
    (fmLookup
        ((readLargeFragment []
          (toBytes4 5 ++ toBytes4 3 ++ toBytes4 0 ++ toBytes2 0 ++ toBytes2 3 ++ [97, 0, 1])
          (0, 0)).1) (5, (0, 0))).map FragBuffer.current_fragment_number = some 1 ∧
    fmLookup
        (readLargeFragment
          ((readLargeFragment []
            (toBytes4 5 ++ toBytes4 3 ++ toBytes4 0 ++ toBytes2 0 ++ toBytes2 3 ++ [97, 0, 1])
            (0, 0)).1)
          (toBytes4 5 ++ toBytes4 3 ++ toBytes4 2 ++ toBytes2 2 ++ toBytes2 3 ++ [3]) (0, 0)).1
        (5, (0, 0)) ≠ none :=
  ⟨by decide, by decide, by decide⟩

/-- Witness for `c3_fragment_buffers`: a one-buffer state expecting fragment
index 1 of sequence 5, fed a fragment with index 2. -/
theorem c3_fragment_buffers_witness :
    (∀ k', countKey (fmInsert [] (5, (0, 0)) ⟨[1], [97], 5, (0, 0), 2, 1⟩) k' ≤ 1) ∧
      fromBytesBE ((((toBytes4 5 ++ toBytes4 3 ++ toBytes4 2 ++ toBytes2 2 ++ toBytes2 3 ++ [3]) : List Nat).drop 12).take 2) ≠ 0 ∧
      fragMismatch (fmInsert [] (5, (0, 0)) ⟨[1], [97], 5, (0, 0), 2, 1⟩)
        (toBytes4 5 ++ toBytes4 3 ++ toBytes4 2 ++ toBytes2 2 ++ toBytes2 3 ++ [3]) (0, 0) = true ∧
      (countKey (readLargeFragment (fmInsert [] (5, (0, 0)) ⟨[1], [97], 5, (0, 0), 2, 1⟩)
          [] (0, 0)).1 (5, (0, 0)) ≤ 1 ∧
        readLargeFragment (fmInsert [] (5, (0, 0)) ⟨[1], [97], 5, (0, 0), 2, 1⟩)
          (toBytes4 5 ++ toBytes4 3 ++ toBytes4 2 ++ toBytes2 2 ++ toBytes2 3 ++ [3]) (0, 0)
          = (fmInsert [] (5, (0, 0)) ⟨[1], [97], 5, (0, 0), 2, 1⟩, none)) :=
  ⟨fun k' => Nat.le_trans (List.countP_le_length _) (by decide),
    by decide, by decide,
    c3_fragment_buffers (fmInsert [] (5, (0, 0)) ⟨[1], [97], 5, (0, 0), 2, 1⟩)
      [] (toBytes4 5 ++ toBytes4 3 ++ toBytes4 2 ++ toBytes2 2 ++ toBytes2 3 ++ [3])
      (0, 0) (5, (0, 0))
      (fun k' => Nat.le_trans (List.countP_le_length _) (by decide))
      (by decide) (by decide)⟩

/-! ## Subscription channel matching (claim C6) -/

/-- A regular expression over bytes, standing in for the pattern object
produced by `re.compile(channel)` in the subscriptions' `__init__`.  The
Python `re` engine is outside the repository; this models the fragment the
code relies on (literal bytes, any-byte, concatenation, alternation, Kleene
star) with standard semantics. -/
inductive Re where
  | fail
  | eps
  | byte (b : Nat)
  | any
  | cat (r s : Re)
  | alt (r s : Re)
  | star (r : Re)
deriving DecidableEq

/-- Whether the regex accepts the empty string. -/
def Re.nullable : Re → Bool
  | .fail => false
  | .eps => true
  | .byte _ => false
  | .any => false
  | .cat r s => r.nullable && s.nullable
  | .alt r s => r.nullable || s.nullable
  | .star _ => true

/-- Brzozowski derivative of the regex by one byte. -/
def Re.deriv : Re → Nat → Re
  | .fail, _ => .fail
  | .eps, _ => .fail
  | .byte b, x => if x = b then .eps else .fail
  | .any, _ => .eps
  | .cat r s, x =>
    if r.nullable then .alt (.cat (r.deriv x) s) (s.deriv x) else .cat (r.deriv x) s
  | .alt r s, x => .alt (r.deriv x) (s.deriv x)
  | .star r, x => .cat (r.deriv x) (.star r)

/-- Whether `r` matches the whole byte string `s`. -/
def reFullMatch (r : Re) (s : List Nat) : Bool :=
  (s.foldl Re.deriv r).nullable

/-- The test `re.compile(r).match(s) is not None`: matching anchored at position 0
with no end anchor required — some prefix of `s` matches `r` in full. -/
def reMatchAt0 (r : Re) (s : List Nat) : Bool :=
  (List.range (s.length + 1)).any (fun k => reFullMatch r (s.take k))

/-- The observable state of an `LcmTcpqSubscription` / `LcmUdpmSubscription`:
the original channel pattern, its compiled regex, the inactive event flag and
the FIFO delivery queue feeding the worker (`None` is the shutdown
sentinel enqueued by `unsubscribe`). -/
structure SubState where
  channel : List Nat
  regex : Re
  inactive : Bool
  queue : List (Option LcmMessage)
deriving DecidableEq

/-- Method `is_active()`: the complement of the inactive flag. -/
def subIsActive (s : SubState) : Bool := !s.inactive

/-- Method `receive(channel, data)`: return without effect when inactive or when the
compiled pattern does not match the channel at position 0, otherwise put an
`LcmMessage(channel, data)` on the queue. -/
def subReceive (s : SubState) (channel data : List Nat) : SubState :=
  if !(subIsActive s) || !(reMatchAt0 s.regex channel) then s
  else { s with queue := s.queue ++ [some ⟨channel, data⟩] }

/-- C6: `receive` drops the message exactly when the Subscription is inactive
or its pattern does not match the channel at position 0, and otherwise
enqueues `LcmMessage(channel, data)`; matching at position 0 means precisely
that some prefix of the channel matches the compiled pattern in full (no end
anchor required). -/
theorem c6_subscription_receive (s : SubState) (channel data : List Nat) :
    subReceive s channel data =
      (if s.inactive = false ∧ reMatchAt0 s.regex channel = true
       then { s with queue := s.queue ++ [some ⟨channel, data⟩] }
       else s) ∧
    (reMatchAt0 s.regex channel = true ↔
      ∃ k, k ≤ channel.length ∧ reFullMatch s.regex (channel.take k) = true) := by
  constructor
  · simp only [subReceive, subIsActive]
    by_cases h1 : s.inactive <;> by_cases h2 : reMatchAt0 s.regex channel <;>
      simp [h1, h2]
  · simp only [reMatchAt0, List.any_eq_true, List.mem_range]
    constructor
    · rintro ⟨k, hk, hm⟩
      exact ⟨k, by omega, hm⟩
    · rintro ⟨k, hk, hm⟩
      exact ⟨k, by omega, hm⟩

/-! ## Teardown behaviour (claim C7) -/

/-- Method `unsubscribe()`: a no-op when already inactive; otherwise set the
inactive flag, notify the owning connection, and enqueue the `None`
sentinel for the worker. -/
def subUnsubscribe (s : SubState) : SubState :=
  if !(subIsActive s) then s
  else { s with inactive := true, queue := s.queue ++ [none] }

/-- The observable state of an `LcmUdpmConnection`: disconnected event flag,
sequence counter, live subscription set (as a list) and fragment buffers. -/
structure UdpmConnState where
  disconnected : Bool
  sequence_number : Nat
  subscriptions : List SubState
  fragment_buffers : FragMap
deriving DecidableEq

/-- Method `is_connected()`. -/
def udpmIsConnected (c : UdpmConnState) : Bool := !c.disconnected

/-- Method `LcmUdpmConnection.publish`: `RuntimeError("Lcm not connected.")` on a
torn-down connection; otherwise emit the wire datagrams for the payload and
increment the sequence number. -/
def udpmConnPublish (c : UdpmConnState) (channel data : List Nat) :
    Except PyErr (UdpmConnState × List (List Nat)) :=
  if !(udpmIsConnected c) then .error (.runtimeError "Lcm not connected.")
  else
    match udpmEncode c.sequence_number channel data with
    | .error e => .error e
    | .ok ds => .ok ({ c with sequence_number := c.sequence_number + 1 }, ds)

/-- Method `LcmUdpmConnection.subscribe`: absent on a torn-down connection;
otherwise create a subscription for the compiled pattern `r` and add it to
the set (no wire traffic for udpm). -/
def udpmConnSubscribe (c : UdpmConnState) (channel : List Nat) (r : Re) :
    Option (UdpmConnState × SubState) :=
  if !(udpmIsConnected c) then none
  else
    some ({ c with subscriptions := c.subscriptions ++ [⟨channel, r, false, []⟩] },
      ⟨channel, r, false, []⟩)

/-- Method `LcmUdpmConnection.disconnect`: a no-op when already torn down; otherwise
set the flag, clear the subscription set and unsubscribe every snapshotted
subscription. -/
def udpmConnDisconnect (c : UdpmConnState) : UdpmConnState :=
  if !(udpmIsConnected c) then c
  else { c with disconnected := true, subscriptions := [] }

/-- The observable state of an `LcmTcpqConnection`. -/
structure TcpqConnState where
  disconnected : Bool
  subscriptions : List SubState
deriving DecidableEq

/-- Method `is_connected()`. -/
def tcpqIsConnected (c : TcpqConnState) : Bool := !c.disconnected

/-- Method `LcmTcpqConnection.publish`: `RuntimeError("Lcm not connected.")` on a
torn-down connection, else one PUBLISH frame on the wire. -/
def tcpqConnPublish (c : TcpqConnState) (channel data : List Nat) :
    Except PyErr (TcpqConnState × List Nat) :=
  if !(tcpqIsConnected c) then .error (.runtimeError "Lcm not connected.")
  else .ok (c, tcpqPublishFrame channel data)

/-- Method `LcmTcpqConnection.subscribe`: absent on a torn-down connection;
otherwise add the subscription and write one SUBSCRIBE frame (type 2). -/
def tcpqConnSubscribe (c : TcpqConnState) (channel : List Nat) (r : Re) :
    Option (TcpqConnState × SubState × List Nat) :=
  if !(tcpqIsConnected c) then none
  else
    some ({ c with subscriptions := c.subscriptions ++ [⟨channel, r, false, []⟩] },
      ⟨channel, r, false, []⟩,
      toBytes4 2 ++ toBytes4 channel.length ++ channel)

/-- Method `LcmTcpqConnection.disconnect`: a no-op when already torn down. -/
def tcpqConnDisconnect (c : TcpqConnState) : TcpqConnState :=
  if !(tcpqIsConnected c) then c
  else { c with disconnected := true, subscriptions := [] }

/-- C7: on a torn-down connection — either provider — publish fails with the
NotConnected `RuntimeError` and subscribe returns an absent result; calling
disconnect again, or unsubscribe again on an inactive subscription, changes
nothing; and disconnect and unsubscribe are idempotent from any state, so N
repeated calls equal one call. -/
theorem c7_torn_down (u : UdpmConnState) (t : TcpqConnState) (sub : SubState)
    (q : UdpmConnState) (p : TcpqConnState) (w : SubState)
    (channel data pat : List Nat) (r : Re)
    (hu : u.disconnected = true) (ht : t.disconnected = true)
    (hsub : sub.inactive = true) :
    udpmConnPublish u channel data = .error (.runtimeError "Lcm not connected.") ∧
    udpmConnSubscribe u pat r = none ∧
    udpmConnDisconnect u = u ∧
    tcpqConnPublish t channel data = .error (.runtimeError "Lcm not connected.") ∧
    tcpqConnSubscribe t pat r = none ∧
    tcpqConnDisconnect t = t ∧
    subUnsubscribe sub = sub ∧
    udpmConnDisconnect (udpmConnDisconnect q) = udpmConnDisconnect q ∧
    tcpqConnDisconnect (tcpqConnDisconnect p) = tcpqConnDisconnect p ∧
    subUnsubscribe (subUnsubscribe w) = subUnsubscribe w := by
  refine ⟨?_, ?_, ?_, ?_, ?_, ?_, ?_, ?_, ?_, ?_⟩
  · simp [udpmConnPublish, udpmIsConnected, hu]
  · simp [udpmConnSubscribe, udpmIsConnected, hu]
  · simp [udpmConnDisconnect, udpmIsConnected, hu]
  · simp [tcpqConnPublish, tcpqIsConnected, ht]
  · simp [tcpqConnSubscribe, tcpqIsConnected, ht]
  · simp [tcpqConnDisconnect, tcpqIsConnected, ht]
  · simp [subUnsubscribe, subIsActive, hsub]
  · by_cases h : q.disconnected <;> simp [udpmConnDisconnect, udpmIsConnected, h]
  · by_cases h : p.disconnected <;> simp [tcpqConnDisconnect, tcpqIsConnected, h]
  · by_cases h : w.inactive <;> simp [subUnsubscribe, subIsActive, h]

/-- Witness for `c7_torn_down` at concrete torn-down and live states. -/
theorem c7_torn_down_witness :
    (⟨true, 0, [], []⟩ : UdpmConnState).disconnected = true ∧
    (⟨true, []⟩ : TcpqConnState).disconnected = true ∧
    (⟨[97], Re.eps, true, []⟩ : SubState).inactive = true ∧
    (udpmConnPublish ⟨true, 0, [], []⟩ [97] [98]
        = .error (.runtimeError "Lcm not connected.") ∧
      udpmConnSubscribe ⟨true, 0, [], []⟩ [97] Re.eps = none ∧
      udpmConnDisconnect ⟨true, 0, [], []⟩ = ⟨true, 0, [], []⟩ ∧
      tcpqConnPublish ⟨true, []⟩ [97] [98]
        = .error (.runtimeError "Lcm not connected.") ∧
      tcpqConnSubscribe ⟨true, []⟩ [97] Re.eps = none ∧
      tcpqConnDisconnect ⟨true, []⟩ = ⟨true, []⟩ ∧
      subUnsubscribe ⟨[97], Re.eps, true, []⟩ = ⟨[97], Re.eps, true, []⟩ ∧
      udpmConnDisconnect (udpmConnDisconnect ⟨false, 0, [], []⟩)
        = udpmConnDisconnect ⟨false, 0, [], []⟩ ∧
      tcpqConnDisconnect (tcpqConnDisconnect ⟨false, []⟩)
        = tcpqConnDisconnect ⟨false, []⟩ ∧
      subUnsubscribe (subUnsubscribe ⟨[97], Re.eps, false, []⟩)
        = subUnsubscribe ⟨[97], Re.eps, false, []⟩) :=
  ⟨rfl, rfl, rfl,
    c7_torn_down ⟨true, 0, [], []⟩ ⟨true, []⟩ ⟨[97], Re.eps, true, []⟩
      ⟨false, 0, [], []⟩ ⟨false, []⟩ ⟨[97], Re.eps, false, []⟩
      [97] [98] [97] Re.eps rfl rfl rfl⟩

/-! ## udpm URL option parsing (claim C9) -/

/-- Conversion `int()` on an ASCII digit string. -/
def digitsToNat (ds : List Char) : Nat :=
  ds.foldl (fun a c => a * 10 + (c.toNat - 48)) 0

/-- The call `re.match(r"ttl=(\d+)", query)` followed by `int(match.group(1))`:
`re.match` anchors at the START of the string, so this succeeds only when the
query begins with `ttl=` followed by at least one digit, the group being the
maximal leading digit run. -/
def parseTtlMatch (q : List Char) : Option Nat :=
  if q.take 4 = ['t', 't', 'l', '='] then
    let ds := (q.drop 4).takeWhile Char.isDigit
    if ds.isEmpty then none else some (digitsToNat ds)
  else none

/-- The multicast TTL chosen by `LcmUdpmConnection.__init__`: the anchored
match when it succeeds, otherwise `DEFAULT_TTL = 1`. -/
def udpmTtl (query : List Char) : Nat := (parseTtlMatch query).getD 1

/-- Modelled from the spec: "`ttl` query is parsed as the first `ttl=<digits>`
occurrence" — a search for the pattern anywhere in the query (what
`re.search` would do), for comparison with the code's anchored `re.match`. -/
def ttlFirstOccurrence : List Char → Option Nat
  | [] => none
  | c :: rest =>
    match parseTtlMatch (c :: rest) with
    | some n => some n
    | none => ttlFirstOccurrence rest

/-- The connection options `LcmUdpmConnection.__init__` computes from the
parsed URL: hostname and port default to 239.255.76.76 and 7667 when absent,
and the TTL comes from the anchored query match.  (The code's
`if parsed_url.query is not None` test is always true — `urlparse` returns
`""` for a missing query — so it imposes nothing.) -/
structure UdpmConfig where
  address : String
  port : Nat
  ttl : Nat
deriving DecidableEq

def udpmConnInit (hostname : Option String) (port : Option Nat)
    (query : List Char) : UdpmConfig :=
  { address := hostname.getD "239.255.76.76",
    port := port.getD 7667,
    ttl := udpmTtl query }

/-- Counterexample to C9 as frozen: in the query "a=1&ttl=7" the first
`ttl=<digits>` occurrence carries 7, but the code's `re.match` is anchored at
the start of the query string, fails, and the default TTL 1 is used. -/
theorem c9_ttl_counterexample :
    ttlFirstOccurrence ['a', '=', '1', '&', 't', 't', 'l', '=', '7'] = some 7 ∧
      udpmTtl ['a', '=', '1', '&', 't', 't', 'l', '=', '7'] = 1 ∧
      (udpmConnInit none none ['a', '=', '1', '&', 't', 't', 'l', '=', '7']).ttl = 1 :=
  ⟨by decide, by decide, by decide⟩

theorem takeWhile_digits (ds rest : List Char) (hdig : ∀ c ∈ ds, c.isDigit)
    (hrest : ∀ c, rest.head? = some c → c.isDigit = false) :
    (ds ++ rest).takeWhile Char.isDigit = ds := by
  induction ds with
  | nil =>
    cases rest with
    | nil => rfl
    | cons c tl =>
      simp [List.takeWhile_cons, hrest c rfl]
  | cons c tl ih =>
    simp only [List.cons_append, List.takeWhile_cons, hdig c (List.mem_cons_self c tl),
      if_true]
    rw [ih (fun x hx => hdig x (List.mem_cons_of_mem c hx))]

/-- C9 (amended): the TTL is taken from a `ttl=<digits>` match anchored at
the START of the query string (`re.match` semantics): a query that begins
with `ttl=` and a digit run yields that run's value, while a query that does
not begin with `ttl=`-then-digit yields the default 1; the address and port
default to 239.255.76.76 and 7667 when absent from the URL. -/
theorem c9_ttl_parsing (hostname : Option String) (port : Option Nat)
    (ds rest q2 : List Char)
    (hds : ds ≠ []) (hdig : ∀ c ∈ ds, c.isDigit)
    (hrest : ∀ c, rest.head? = some c → c.isDigit = false)
    (hq2 : q2.take 4 = ['t', 't', 'l', '='] →
      ∀ c, (q2.drop 4).head? = some c → c.isDigit = false) :
    (udpmConnInit hostname port ('t' :: 't' :: 'l' :: '=' :: (ds ++ rest))).ttl
        = digitsToNat ds ∧
      (udpmConnInit hostname port q2).ttl = 1 ∧
      (udpmConnInit hostname port q2).address = hostname.getD "239.255.76.76" ∧
      (udpmConnInit hostname port q2).port = port.getD 7667 := by
  refine ⟨?_, ?_, rfl, rfl⟩
  · simp only [udpmConnInit, udpmTtl, parseTtlMatch]
    rw [if_pos (show List.take 4 ('t' :: 't' :: 'l' :: '=' :: (ds ++ rest))
      = ['t', 't', 'l', '='] from rfl)]
    rw [show ('t' :: 't' :: 'l' :: '=' :: (ds ++ rest)).drop 4 = ds ++ rest from rfl]
    rw [takeWhile_digits ds rest hdig hrest]
    rw [if_neg (by simpa [List.isEmpty_iff] using hds)]
    rfl
  · simp only [udpmConnInit, udpmTtl, parseTtlMatch]
    by_cases h4 : q2.take 4 = ['t', 't', 'l', '=']
    · rw [if_pos h4]
      have hemp : ((q2.drop 4).takeWhile Char.isDigit).isEmpty = true := by
        cases hd : q2.drop 4 with
        | nil => rfl
        | cons c tl =>
          simp only [List.takeWhile_cons, hq2 h4 c (by rw [hd]; rfl)]
          rfl
      rw [if_pos hemp]
      rfl
    · rw [if_neg h4]
      rfl

/-- Witness for `c9_ttl_parsing` at query "ttl=7" and non-matching query
"a". -/
theorem c9_ttl_parsing_witness :
    (['7'] : List Char) ≠ [] ∧
      (∀ c ∈ (['7'] : List Char), c.isDigit) ∧
      (udpmConnInit none none ('t' :: 't' :: 'l' :: '=' :: (['7'] ++ []))).ttl
          = digitsToNat ['7'] ∧
      (udpmConnInit none none ['a']).ttl = 1 ∧
      (udpmConnInit none none ['a']).address = Option.getD none "239.255.76.76" ∧
      (udpmConnInit none none ['a']).port = Option.getD none 7667 :=
  ⟨by decide, by decide,
    c9_ttl_parsing none none ['7'] [] ['a'] (by decide) (by decide)
      (fun c h => Option.noConfusion h)
      (fun h => absurd h (by decide))⟩

/-! ## Provider registry (claims C4 and C10) -/

/-- Characters a URL scheme may contain after its leading letter
(`urllib.parse.scheme_chars`). -/
def schemeChar (c : Char) : Bool :=
  c.isAlpha || c.isDigit || c == '+' || c == '-' || c == '.'

/-- Modelled from `urllib.parse.urlparse` (stdlib, external to this repo):
`.scheme` is the lowercased text before the first ':' when that text is
nonempty, starts with an ASCII letter, and uses only scheme characters;
otherwise it is the empty string. -/
def urlScheme (url : List Char) : List Char :=
  match url.findIdx? (fun c => c == ':') with
  | none => []
  | some i =>
    if 0 < i && (url.take i).all schemeChar &&
        (match url.head? with | some c => c.isAlpha | none => false)
    then (url.take i).map Char.toLower
    else []

/-- Method `Lcm.connect(url)` (`lcm.py`): `ValueError` when the URL has no scheme,
`RuntimeError` when no provider is registered for the scheme; otherwise the
registered provider's connect runs inside
`try: … except (RuntimeError, ValueError): return None`.  Providers are an
association list from scheme name to connect behaviour; the type `α`
abstracts the connection object a provider produces. -/
def lcmConnect {α : Type} (providers : List (List Char × (List Char → Except PyErr α)))
    (url : List Char) : Except PyErr (Option α) :=
  let scheme := urlScheme url
  if scheme = [] then
    .error (.valueError ("No provider declared in connection url: "
      ++ String.mk url ++ "."))
  else
    match providers.find? (fun p => p.1 == scheme) with
    | none => .error (.runtimeError ("No " ++ String.mk scheme
        ++ " provider is registered."))
    | some p =>
      match p.2 url with
      | .ok c => .ok (some c)
      | .error (.valueError _) => .ok none
      | .error (.runtimeError _) => .ok none
      | .error e => .error e

/-- The exception classes the registry's `except (RuntimeError, ValueError)`
swallows — the recoverable provider failures: an invalid URL (`ValueError`)
or a failed network establishment/handshake (`RuntimeError`). -/
def recoverableErr : PyErr → Bool
  | .valueError _ => true
  | .runtimeError _ => true
  | .osError => false
  | .overflowError => false

/-- C4: registry connect fails with the invalid-URL `ValueError` for every
URL without a scheme and with the no-such-provider `RuntimeError` for every
unregistered scheme; otherwise it forwards to the provider and returns its
connection, except that a recoverable provider failure — an invalid URL or a
failed network establishment, i.e. the `ValueError`/`RuntimeError` classes —
becomes an absent result while every other exception propagates to the
caller. -/
theorem c4_registry_connect {α : Type}
    (providers : List (List Char × (List Char → Except PyErr α))) (url : List Char) :
    lcmConnect providers url =
      if urlScheme url = [] then
        .error (.valueError ("No provider declared in connection url: "
          ++ String.mk url ++ "."))
      else
        match providers.find? (fun p => p.1 == urlScheme url) with
        | none => .error (.runtimeError ("No " ++ String.mk (urlScheme url)
            ++ " provider is registered."))
        | some p =>
          match p.2 url with
          | .ok c => .ok (some c)
          | .error e => if recoverableErr e then .ok none else .error e := by
  simp only [lcmConnect]
  split
  · rfl
  · split
    · rfl
    · rename_i p hp
      cases hpu : p.2 url with
      | ok c => rfl
      | error e => cases e <;> rfl

/-- The provider table of a freshly constructed `Lcm()`: `__init__` registers
only "tcpq" (`self.register_provider("tcpq", LcmTcpqProvider)`); the tcpq
provider's connect behaviour is abstracted as `tf`. -/
def defaultProviders {α : Type} (tf : List Char → Except PyErr α) :
    List (List Char × (List Char → Except PyErr α)) :=
  [(['t', 'c', 'p', 'q'], tf)]

/-- C10: a fresh registry registers only the "tcpq" provider, so `connect` on
any URL whose scheme is non-empty and not "tcpq" — "udpm" included, even
though the codebase ships a udpm provider implementation — raises the
no-such-provider `RuntimeError` without consulting any provider. -/
theorem c10_default_registry {α : Type} (tf : List Char → Except PyErr α)
    (url : List Char)
    (h1 : urlScheme url ≠ []) (h2 : urlScheme url ≠ ['t', 'c', 'p', 'q']) :
    (defaultProviders tf).map Prod.fst = [['t', 'c', 'p', 'q']] ∧
      lcmConnect (defaultProviders tf) url =
        .error (.runtimeError ("No " ++ String.mk (urlScheme url)
          ++ " provider is registered.")) := by
  refine ⟨rfl, ?_⟩
  simp only [lcmConnect, defaultProviders]
  rw [if_neg h1]
  have hbeq : ((['t', 'c', 'p', 'q'] : List Char) == urlScheme url) = false := by
    simp only [beq_eq_false_iff_ne, ne_eq]
    exact fun hc => h2 hc.symm
  rw [List.find?_cons_of_neg _ (by simp [hbeq]), List.find?_nil]

/-- Witness for `c10_default_registry` at the URL "udpm://" with a tcpq
provider whose connect fails with `OSError`. -/
theorem c10_default_registry_witness :
    urlScheme ['u', 'd', 'p', 'm', ':', '/', '/'] ≠ [] ∧
      urlScheme ['u', 'd', 'p', 'm', ':', '/', '/'] ≠ ['t', 'c', 'p', 'q'] ∧
      ((defaultProviders (fun _ => (Except.error PyErr.osError : Except PyErr Nat))).map
          Prod.fst = [['t', 'c', 'p', 'q']] ∧
        lcmConnect (defaultProviders (fun _ => (Except.error PyErr.osError : Except PyErr Nat)))
            ['u', 'd', 'p', 'm', ':', '/', '/'] =
          .error (.runtimeError ("No "
            ++ String.mk (urlScheme ['u', 'd', 'p', 'm', ':', '/', '/'])
            ++ " provider is registered."))) :=
  ⟨by decide, by decide,
    c10_default_registry (fun _ => (Except.error PyErr.osError : Except PyErr Nat))
      ['u', 'd', 'p', 'm', ':', '/', '/'] (by decide) (by decide)⟩

end Pylcm
